import Mathlib

/-!
Shallow embedding of the update-sequencing core of the `grammers` Telegram
client library, restricted to the parts exercised by the claims:

* `src/lib/grammers-client/src/client/updates.rs` — the sequencer:
  `next_update`, `next_raw_update`, `process_socket_updates`,
  `extend_update_queue`, and the overflow-warning cooldown constant;
* `src/lib/grammers-client/src/types/update.rs` — `Update::new`, the
  raw-to-typed dispatch;
* `src/lib/grammers-mtsender/src/retry.rs` — `RetryPolicy`, `Fixed`,
  `NoRetry`, and the `retrying!` loop.

The `MessageBox` and peer-hash operations live in the `grammers-session`
crate, whose source is not part of this tree; they enter the embedding as
function parameters (so every theorem about the sequencer holds for any
implementation of them), except where a claim needs their behaviour, in
which case a definition modelled from the spec is used and marked as such.
Machine integers that never overflow in the modelled paths are embedded as
`Nat`/`Int`; `Instant`/`Duration` values are embedded as `Nat` numbers of
seconds, matching `Duration::from_secs(300)` in the source.
-/

/-- Rust's `usize::checked_sub`: `a.checked_sub b = some (a - b)` when
`b ≤ a`, and `none` on underflow. Used by `extend_update_queue`. -/
def checkedSub (a b : Nat) : Option Nat :=
  if b ≤ a then some (a - b) else none

/-- Embedded `tl::enums::Update` (the raw update union). The variants that
`Update::new` inspects are kept with the fields that the source reads;
every remaining variant of the large generated enum is collapsed into
representative constructors that the source's catch-all arm receives
(`userStatus` as a concrete example of an unhandled variant, plus an
indexed `other` family standing for the rest). Message payloads are opaque
(`Nat`); ids are `Int` as in the generated TL code (`i64`/`i32`). -/
inductive TlUpdate where
  | newMessage (message : Nat) (pts : Int) (ptsCount : Int)
  | newChannelMessage (message : Nat) (pts : Int) (ptsCount : Int)
  | editMessage (message : Nat) (pts : Int) (ptsCount : Int)
  | editChannelMessage (message : Nat) (pts : Int) (ptsCount : Int)
  | deleteMessages (messages : List Int) (pts : Int) (ptsCount : Int)
  | deleteChannelMessages (messages : List Int) (channelId : Int) (pts : Int) (ptsCount : Int)
  | botCallbackQuery (query : Nat)
  | botInlineQuery (query : Nat)
  | userStatus (userId : Int) (status : Nat)
  | other (tag : Nat)
deriving DecidableEq, Repr

/-- Modelled from the spec: `ChatMap` (crate `grammers-client`, types
module; its construction is outside the claimed sources). Per the spec it
is an immutable keyed view of the users and chats contained in one
container; it is embedded as the value of those two entity lists, entities
being their ids. -/
structure ChatMap where
  users : List Int
  chats : List Int
deriving DecidableEq, Repr

/-- Embeds `ChatMap::new(users, chats)` — bundles the entity lists delivered with
a batch into one shared snapshot (`Arc<ChatMap>` in the source; `Arc`
sharing is value sharing here). -/
def ChatMap.new (users chats : List Int) : ChatMap :=
  { users := users, chats := chats }

/-- Embeds `UpdateResult` (from `grammers-session`, used by
`process_socket_updates`): the updates applied from a container plus the
entities that came with them. -/
structure UpdateResult where
  updates : List TlUpdate
  users : List Int
  chats : List Int
deriving DecidableEq, Repr

/-- Embeds `UpdateResult::default()` — all three lists empty. -/
def UpdateResult.default : UpdateResult :=
  { updates := [], users := [], chats := [] }

/-- The slice of `Client` state that `updates.rs` touches: the update
queue (`state.updates`, a FIFO of raw update / chat-map pairs), the
message box and chat-hash table (abstract types `MB` and `Hashes`, owned
by `grammers-session`), and the overflow-warning timestamp. All of it sits
behind the single `state` lock in the source. -/
structure ClientState (MB Hashes : Type) where
  updates : List (TlUpdate × ChatMap)
  message_box : MB
  chat_hashes : Hashes
  last_update_limit_warn : Option Nat
deriving Repr

/-- Embeds `UPDATE_LIMIT_EXCEEDED_LOG_COOLDOWN`: how long to wait after warning
the user that the updates limit was exceeded (300 seconds in the source;
time is embedded in seconds). -/
def UPDATE_LIMIT_EXCEEDED_LOG_COOLDOWN : Nat := 300

/-- Embeds `Client::extend_update_queue(updates, chat_map)` from `updates.rs`.
`update_queue_limit` is the configured `Option<usize>` bound and `now` the
value `Instant::now()` takes during the call. Returns the new state and
whether `log::warn!` fired (`notify` in the source). On overflow the
incoming batch is truncated (`Vec::truncate` keeps the first elements) and
`last_update_limit_warn` is set to `now` whether or not the warning was
logged. -/
def extend_update_queue {MB Hashes : Type} (update_queue_limit : Option Nat) (now : Nat)
    (st : ClientState MB Hashes) (updates : List TlUpdate) (chat_map : ChatMap) :
    ClientState MB Hashes × Bool :=
  match update_queue_limit with
  | some limit =>
    match checkedSub (st.updates.length + updates.length) (limit + 1) with
    | some exceeds0 =>
      let exceeds := exceeds0 + 1
      let notify : Bool :=
        match st.last_update_limit_warn with
        | none => true
        | some instant => decide (UPDATE_LIMIT_EXCEEDED_LOG_COOLDOWN < now - instant)
      let updates' := updates.take (updates.length - exceeds)
      ({ st with
          updates := st.updates ++ updates'.map (fun u => (u, chat_map)),
          last_update_limit_warn := some now },
        notify)
    | none =>
      ({ st with updates := st.updates ++ updates.map (fun u => (u, chat_map)) }, false)
  | none =>
    ({ st with updates := st.updates ++ updates.map (fun u => (u, chat_map)) }, false)

theorem extend_update_queue_none {MB Hashes : Type} (now : Nat)
    (st : ClientState MB Hashes) (updates : List TlUpdate) (cm : ChatMap) :
    extend_update_queue none now st updates cm =
      ({ st with updates := st.updates ++ updates.map (fun u => (u, cm)) }, false) := by
  rfl

/-- Every call appends some prefix of the incoming batch, each element
paired with the one shared chat map, and never removes existing entries. -/
theorem extend_update_queue_shape {MB Hashes : Type}
    (limit : Option Nat) (now : Nat)
    (st : ClientState MB Hashes) (updates : List TlUpdate) (cm : ChatMap) :
    ∃ k, (extend_update_queue limit now st updates cm).1.updates =
      st.updates ++ (updates.take k).map (fun u => (u, cm)) := by
  unfold extend_update_queue
  match limit with
  | none => exact ⟨updates.length, by simp⟩
  | some l =>
    unfold checkedSub
    by_cases h : l + 1 ≤ st.updates.length + updates.length
    · simp only [h, if_pos]
      exact ⟨updates.length - ((st.updates.length + updates.length - (l + 1)) + 1), rfl⟩
    · simp only [h, if_neg, not_false_iff]
      exact ⟨updates.length, by simp⟩

/-- C4: with `update_queue_limit = Some L` and a queue currently holding
`q ≤ L` entries, an overflowing call appends exactly the first `L - q`
incoming updates in order (the newest excess is truncated from the
incoming batch) and never removes existing entries; a non-overflowing call
appends the whole batch; the queue length never exceeds `L` after the
call; with `update_queue_limit = None` every incoming update is appended. -/
theorem C4_extend_update_queue_bounded {MB Hashes : Type} (L now : Nat)
    (st : ClientState MB Hashes) (updates : List TlUpdate) (cm : ChatMap)
    (hq : st.updates.length ≤ L) :
    (L < st.updates.length + updates.length →
      (extend_update_queue (some L) now st updates cm).1.updates =
        st.updates ++ (updates.take (L - st.updates.length)).map (fun u => (u, cm))) ∧
    (st.updates.length + updates.length ≤ L →
      (extend_update_queue (some L) now st updates cm).1.updates =
        st.updates ++ updates.map (fun u => (u, cm))) ∧
    (extend_update_queue (some L) now st updates cm).1.updates.length ≤ L ∧
    (extend_update_queue none now st updates cm).1.updates =
      st.updates ++ updates.map (fun u => (u, cm)) := by
  have htake : updates.length -
      ((st.updates.length + updates.length - (L + 1)) + 1) = L - st.updates.length ∨
      st.updates.length + updates.length ≤ L := by omega
  unfold extend_update_queue checkedSub
  by_cases hover : L + 1 ≤ st.updates.length + updates.length
  · simp only [hover, if_pos]
    have htake' : updates.length -
        ((st.updates.length + updates.length - (L + 1)) + 1) = L - st.updates.length := by
      omega
    refine ⟨fun _ => by rw [htake'], fun hle => absurd hle (by omega), ?_, by simp⟩
    simp only [List.length_append, List.length_map, List.length_take, htake']
    omega
  · simp only [hover, if_neg, not_false_iff]
    refine ⟨fun hlt => absurd hlt (by omega), fun _ => by simp, ?_, by simp⟩
    simp only [List.length_append, List.length_map]
    omega

/-- C4 witness: queue of length 1, limit 2, incoming batch of length 3 —
exactly the first `2 - 1 = 1` incoming update is appended. -/
theorem C4_extend_update_queue_bounded_witness :
    ((⟨[(TlUpdate.other 0, ChatMap.new [] [])], (), (), none⟩ :
        ClientState Unit Unit).updates.length ≤ 2) ∧
    (extend_update_queue (some 2) 7
        (⟨[(TlUpdate.other 0, ChatMap.new [] [])], (), (), none⟩ : ClientState Unit Unit)
        [TlUpdate.other 1, TlUpdate.other 2, TlUpdate.other 3]
        (ChatMap.new [5] [])).1.updates =
      [(TlUpdate.other 0, ChatMap.new [] []),
       (TlUpdate.other 1, ChatMap.new [5] [])] := by
  refine ⟨by simp, ?_⟩
  have h := (C4_extend_update_queue_bounded 2 7
      (⟨[(TlUpdate.other 0, ChatMap.new [] [])], (), (), none⟩ : ClientState Unit Unit)
      [TlUpdate.other 1, TlUpdate.other 2, TlUpdate.other 3]
      (ChatMap.new [5] []) (by simp)).1 (by simp)
  simpa using h

/-- C7 counterexample: three consecutive overflowing calls at times 0 s,
200 s and 400 s (limit 0, one incoming update each). The first logs the
warning; the second does not (200 ≤ 300 since the last warning); the third
does not either, even though more than 300 s (= 5 min) have passed since
the previous warning was actually logged at time 0 — because
`last_update_limit_warn` was refreshed at time 200 by the unlogged
overflow. This refutes "logged iff more than 5 minutes since the previous
warning was logged" and "under continuous overflow a warning recurs once
every 5 minutes". -/
theorem C7_warning_cooldown_counterexample :
    (extend_update_queue (some 0) 0 (⟨[], (), (), none⟩ : ClientState Unit Unit)
      [TlUpdate.other 0] (ChatMap.new [] [])).2 = true ∧
    (extend_update_queue (some 0) 200
      (extend_update_queue (some 0) 0 (⟨[], (), (), none⟩ : ClientState Unit Unit)
        [TlUpdate.other 0] (ChatMap.new [] [])).1
      [TlUpdate.other 1] (ChatMap.new [] [])).2 = false ∧
    (extend_update_queue (some 0) 400
      (extend_update_queue (some 0) 200
        (extend_update_queue (some 0) 0 (⟨[], (), (), none⟩ : ClientState Unit Unit)
          [TlUpdate.other 0] (ChatMap.new [] [])).1
        [TlUpdate.other 1] (ChatMap.new [] [])).1
      [TlUpdate.other 2] (ChatMap.new [] [])).2 = false ∧
    UPDATE_LIMIT_EXCEEDED_LOG_COOLDOWN < 400 - 0 := by
  decide

/-- C7 (amended): on an overflow event the warning is logged if and only
if either no overflow has been recorded before or more than 5 minutes have
elapsed since the previous *overflow event* (logged or not), because
`last_update_limit_warn` is set to `now` on every overflow regardless of
whether the warning fired; hence under continuous overflow at intervals of
at most 5 minutes only the first overflow logs a warning. -/
theorem C7_warning_cooldown_amended {MB Hashes : Type} (L now : Nat)
    (st : ClientState MB Hashes) (updates : List TlUpdate) (cm : ChatMap)
    (hover : L < st.updates.length + updates.length) :
    ((extend_update_queue (some L) now st updates cm).2 = true ↔
      (st.last_update_limit_warn = none ∨
        ∃ t, st.last_update_limit_warn = some t ∧
          UPDATE_LIMIT_EXCEEDED_LOG_COOLDOWN < now - t)) ∧
    (extend_update_queue (some L) now st updates cm).1.last_update_limit_warn =
      some now := by
  unfold extend_update_queue checkedSub
  have h : L + 1 ≤ st.updates.length + updates.length := by omega
  simp only [h, if_pos]
  constructor
  · cases hw : st.last_update_limit_warn with
    | none => simp
    | some t => simp [hw]
  · trivial

/-- C7 amended witness: previous overflow recorded at time 200, current
overflow at time 400 — only 200 s have passed, so no warning is logged,
and the timestamp is refreshed to 400. -/
theorem C7_warning_cooldown_amended_witness :
    (((extend_update_queue (some 0) 400 (⟨[], (), (), some 200⟩ : ClientState Unit Unit)
        [TlUpdate.other 0] (ChatMap.new [] [])).2 = true ↔
      ((⟨[], (), (), some 200⟩ : ClientState Unit Unit).last_update_limit_warn = none ∨
        ∃ t, (⟨[], (), (), some 200⟩ : ClientState Unit Unit).last_update_limit_warn = some t ∧
          UPDATE_LIMIT_EXCEEDED_LOG_COOLDOWN < 400 - t)) ∧
     (extend_update_queue (some 0) 400 (⟨[], (), (), some 200⟩ : ClientState Unit Unit)
        [TlUpdate.other 0] (ChatMap.new [] [])).1.last_update_limit_warn = some 400) :=
  C7_warning_cooldown_amended 0 400 ⟨[], (), (), some 200⟩ [TlUpdate.other 0]
    (ChatMap.new [] []) (by decide)

/-- The `for updates in all_updates` loop body of
`Client::process_socket_updates`. `ensure` embeds
`MessageBox::ensure_known_peer_hashes` (crate `grammers-session`, not in
this tree): modelled from the spec, on an unknown peer it returns `none`
and leaves the hash table unchanged, otherwise it returns the possibly
extended table. `procUpd` embeds `MessageBox::process_updates`, which
mutates the box and returns the applied batch or a gap error. The loop
skips a container whose peers are unknown (`continue` in the source),
accumulates successful results into `res`, and on a gap error returns from
the enclosing function at once — the accumulated `res` is discarded but
the box and hash mutations made so far stand. -/
def processSocketLoop {Cont MB Hashes : Type}
    (ensure : Cont → Hashes → Option Hashes)
    (procUpd : Cont → Hashes → MB → Except Unit (MB × UpdateResult)) :
    List Cont → MB → Hashes → UpdateResult → MB × Hashes × Option UpdateResult
  | [], mb, hashes, res => (mb, hashes, some res)
  | updates :: rest, mb, hashes, res =>
    match ensure updates hashes with
    | none => processSocketLoop ensure procUpd rest mb hashes res
    | some hashes1 =>
      match procUpd updates hashes1 mb with
      | .error _ => (mb, hashes1, none)
      | .ok (mb1, r) =>
        processSocketLoop ensure procUpd rest mb1 hashes1
          { updates := res.updates ++ r.updates,
            users := res.users ++ r.users,
            chats := res.chats ++ r.chats }

/-- Embeds `Client::process_socket_updates(all_updates)` from `updates.rs`: empty
batches return immediately; otherwise the loop above runs, and if it
completed without a gap and produced at least one update, the accumulated
updates are pushed to the queue paired with one `ChatMap` built from the
accumulated users and chats. -/
def process_socket_updates {Cont MB Hashes : Type}
    (ensure : Cont → Hashes → Option Hashes)
    (procUpd : Cont → Hashes → MB → Except Unit (MB × UpdateResult))
    (update_queue_limit : Option Nat) (now : Nat)
    (all_updates : List Cont) (s : ClientState MB Hashes) : ClientState MB Hashes :=
  if all_updates.isEmpty then s
  else
    match processSocketLoop ensure procUpd all_updates s.message_box s.chat_hashes
        UpdateResult.default with
    | (mb, hashes, none) => { s with message_box := mb, chat_hashes := hashes }
    | (mb, hashes, some result) =>
      if result.updates.isEmpty then { s with message_box := mb, chat_hashes := hashes }
      else
        (extend_update_queue update_queue_limit now
          { s with message_box := mb, chat_hashes := hashes }
          result.updates (ChatMap.new result.users result.chats)).1

theorem processSocketLoop_append {Cont MB Hashes : Type}
    (ensure : Cont → Hashes → Option Hashes)
    (procUpd : Cont → Hashes → MB → Except Unit (MB × UpdateResult))
    (pre rest : List Cont) (mb : MB) (hashes : Hashes) (res : UpdateResult) :
    processSocketLoop ensure procUpd (pre ++ rest) mb hashes res =
      match processSocketLoop ensure procUpd pre mb hashes res with
      | (mb1, h1, some res1) => processSocketLoop ensure procUpd rest mb1 h1 res1
      | (mb1, h1, none) => (mb1, h1, none) := by
  induction pre generalizing mb hashes res with
  | nil => simp [processSocketLoop]
  | cons c pre ih =>
    cases hens : ensure c hashes with
    | none =>
      simp only [List.cons_append, processSocketLoop, hens]
      exact ih mb hashes res
    | some h1 =>
      cases hproc : procUpd c h1 mb with
      | error g => simp only [List.cons_append, processSocketLoop, hens, hproc]
      | ok p =>
        obtain ⟨mb1, r⟩ := p
        simp only [List.cons_append, processSocketLoop, hens, hproc]
        exact ih mb1 h1 _

/-- C5: a container whose referenced peers fail
`ensure_known_peer_hashes` is dropped whole — the loop proceeds to the
remaining containers with the exact same message box, hash table and
accumulated result, so the dropped container causes no state change, no
error reaches the caller (`continue` in the source), and the rest of the
batch is still processed. -/
theorem C5_unknown_peer_container_dropped {Cont MB Hashes : Type}
    (ensure : Cont → Hashes → Option Hashes)
    (procUpd : Cont → Hashes → MB → Except Unit (MB × UpdateResult))
    (c : Cont) (rest : List Cont) (mb : MB) (hashes : Hashes) (res : UpdateResult)
    (hunk : ensure c hashes = none) :
    processSocketLoop ensure procUpd (c :: rest) mb hashes res =
      processSocketLoop ensure procUpd rest mb hashes res := by
  simp [processSocketLoop, hunk]

/-- C5 witness: container `0` has an unknown peer and is dropped; the
batch continues with container `1` from an unchanged state. -/
theorem C5_unknown_peer_container_dropped_witness :
    processSocketLoop (fun (c : Nat) (h : Nat) => if c = 0 then none else some h)
      (fun (c : Nat) (_ : Nat) (mb : Nat) =>
        Except.ok (mb + 1, (⟨[TlUpdate.other c], [], []⟩ : UpdateResult)))
      [0, 1] 5 7 UpdateResult.default =
    processSocketLoop (fun (c : Nat) (h : Nat) => if c = 0 then none else some h)
      (fun (c : Nat) (_ : Nat) (mb : Nat) =>
        Except.ok (mb + 1, (⟨[TlUpdate.other c], [], []⟩ : UpdateResult)))
      [1] 5 7 UpdateResult.default :=
  C5_unknown_peer_container_dropped _ _ 0 [1] 5 7 UpdateResult.default (by decide)

/-- C6: when `process_updates` reports a gap on container `c`, after the
containers in `pre` were applied successfully, `process_socket_updates`
returns at once: the message box keeps the advances made by `pre` (and
the hash table the extension made while admitting `c`), the containers in
`rest` are never examined, and the update queue is left exactly as it was
— every update accumulated from `pre` is discarded. -/
theorem C6_gap_discards_accumulated_updates {Cont MB Hashes : Type}
    (ensure : Cont → Hashes → Option Hashes)
    (procUpd : Cont → Hashes → MB → Except Unit (MB × UpdateResult))
    (limit : Option Nat) (now : Nat)
    (pre : List Cont) (c : Cont) (rest : List Cont)
    (s : ClientState MB Hashes) (mb1 : MB) (h1 h2 : Hashes) (res1 : UpdateResult) (g : Unit)
    (hpre : processSocketLoop ensure procUpd pre s.message_box s.chat_hashes
      UpdateResult.default = (mb1, h1, some res1))
    (hens : ensure c h1 = some h2)
    (herr : procUpd c h2 mb1 = .error g) :
    process_socket_updates ensure procUpd limit now (pre ++ c :: rest) s =
      { s with message_box := mb1, chat_hashes := h2 } := by
  have hloop : processSocketLoop ensure procUpd (pre ++ c :: rest) s.message_box
      s.chat_hashes UpdateResult.default = (mb1, h2, none) := by
    rw [processSocketLoop_append, hpre]
    simp [processSocketLoop, hens, herr]
  have hne : (pre ++ c :: rest).isEmpty = false := by simp
  simp [process_socket_updates, hne, hloop]

/-- C6 witness: container `1` applies cleanly (box advances to 1, one
accumulated update), container `9` raises a gap; the call ends with the
advanced box and hash table, an unchanged queue, and container `2`
untouched. -/
theorem C6_gap_discards_accumulated_updates_witness :
    process_socket_updates
      (fun (c : Nat) (h : Nat) => some (h + c))
      (fun (c : Nat) (_ : Nat) (mb : Nat) =>
        if c = 9 then Except.error ()
        else Except.ok (mb + c, (⟨[TlUpdate.other c], [], []⟩ : UpdateResult)))
      none 0 ([1] ++ 9 :: [2])
      ⟨[(TlUpdate.other 0, ChatMap.new [] [])], 0, 0, none⟩ =
    ⟨[(TlUpdate.other 0, ChatMap.new [] [])], 1, 10, none⟩ :=
  C6_gap_discards_accumulated_updates _ _ none 0 [1] 9 [2]
    ⟨[(TlUpdate.other 0, ChatMap.new [] [])], 0, 0, none⟩
    1 1 10 ⟨[TlUpdate.other 1], [], []⟩ () (by rfl) (by rfl) (by rfl)

/-- C3 counterexample: a batch of two containers, container `1` embedding
only user `1` and container `2` embedding only user `2`, each carrying one
update. After `process_socket_updates`, the queue entry for container
`1`'s update is paired with the chat map `{users := [1, 2]}` — the map
built from the merged entities of the whole batch — and not with
`{users := [1]}`, the entities of the single container that carried it.
So the claimed per-container pairing is false: entities from the other
container of the same batch do leak into the snapshot. -/
theorem C3_chatmap_per_container_counterexample :
    (process_socket_updates (fun (_ : Nat) (h : Nat) => some h)
      (fun (c : Nat) (_ : Nat) (mb : Nat) =>
        Except.ok (mb, (⟨[TlUpdate.other c], [(c : Int)], []⟩ : UpdateResult)))
      none 0 [1, 2] ⟨[], 0, 0, none⟩).updates =
      [(TlUpdate.other 1, ChatMap.new [1, 2] []),
       (TlUpdate.other 2, ChatMap.new [1, 2] [])] ∧
    ChatMap.new [1, 2] [] ≠ ChatMap.new [1] [] := by
  constructor
  · rfl
  · decide

/-- C3 (amended): every update pushed to the queue by one
`process_socket_updates` call is paired, by shared ownership, with the one
immutable `ChatMap` snapshot of that call, built from the users and chats
accumulated over all successfully processed containers of the batch (not
from the single container that carried the update); existing queue entries
and their snapshots are untouched. -/
theorem C3_chatmap_per_batch_amended {Cont MB Hashes : Type}
    (ensure : Cont → Hashes → Option Hashes)
    (procUpd : Cont → Hashes → MB → Except Unit (MB × UpdateResult))
    (limit : Option Nat) (now : Nat) (batch : List Cont)
    (s : ClientState MB Hashes) (mb1 : MB) (h1 : Hashes) (res : UpdateResult)
    (hloop : processSocketLoop ensure procUpd batch s.message_box s.chat_hashes
      UpdateResult.default = (mb1, h1, some res)) :
    ∃ k, (process_socket_updates ensure procUpd limit now batch s).updates =
      s.updates ++ (res.updates.take k).map
        (fun u => (u, ChatMap.new res.users res.chats)) := by
  by_cases hb : batch.isEmpty = true
  · refine ⟨0, ?_⟩
    simp [process_socket_updates, hb]
  · obtain ⟨k, hk⟩ := extend_update_queue_shape limit now
      { s with message_box := mb1, chat_hashes := h1 }
      res.updates (ChatMap.new res.users res.chats)
    by_cases hre : res.updates.isEmpty = true
    · refine ⟨0, ?_⟩
      have hnil : res.updates = [] := by simpa using hre
      simp [process_socket_updates, hb, hloop, hre, hnil]
    · refine ⟨k, ?_⟩
      simp only [process_socket_updates, hb, if_neg, Bool.false_eq_true,
        not_false_iff, hloop, hre]
      simpa using hk

/-- C3 amended witness: the batch of the counterexample — both queued
updates share the single merged snapshot `{users := [1, 2]}`. -/
theorem C3_chatmap_per_batch_amended_witness :
    ∃ k, (process_socket_updates (fun (_ : Nat) (h : Nat) => some h)
      (fun (c : Nat) (_ : Nat) (mb : Nat) =>
        Except.ok (mb, (⟨[TlUpdate.other c], [(c : Int)], []⟩ : UpdateResult)))
      none 0 [1, 2] (⟨[], 0, 0, none⟩ : ClientState Nat Nat)).updates =
      (⟨[], 0, 0, none⟩ : ClientState Nat Nat).updates ++
        (([TlUpdate.other 1, TlUpdate.other 2].take k).map
          (fun u => (u, ChatMap.new [1, 2] []))) :=
  C3_chatmap_per_batch_amended _ _ none 0 [1, 2] ⟨[], 0, 0, none⟩
    0 0 ⟨[TlUpdate.other 1, TlUpdate.other 2], [1, 2], []⟩ (by rfl)

/-- Message payloads are opaque to the claims; `Message` construction
(`Message::new`, outside the claimed sources) is a parameter below. -/
abbrev Message := Nat

/-- Embeds `MessageDeletion` as built by `Update::new`: `new(messages)` carries
no channel, `new_with_channel(messages, channel_id)` carries one
(constructors live in the types module outside the claimed sources;
modelled from their two call sites in `Update::new`). -/
structure MessageDeletion where
  messages : List Int
  channel_id : Option Int
deriving DecidableEq, Repr

/-- Embeds `MessageDeletion::new(messages)`. -/
def MessageDeletion.new (messages : List Int) : MessageDeletion :=
  { messages := messages, channel_id := none }

/-- Embeds `MessageDeletion::new_with_channel(messages, channel_id)`. -/
def MessageDeletion.new_with_channel (messages : List Int) (channel_id : Int) :
    MessageDeletion :=
  { messages := messages, channel_id := some channel_id }

/-- Embeds `CallbackQuery::new(client, query, chats)` keeps the raw query and the
chat map (the client handle carries no data relevant to the claims). -/
structure CallbackQuery where
  query : Nat
  chats : ChatMap
deriving DecidableEq, Repr

/-- Embeds `InlineQuery::new(client, query, chats)`, likewise. -/
structure InlineQuery where
  query : Nat
  chats : ChatMap
deriving DecidableEq, Repr

/-- The public `Update` enum of `types/update.rs`. -/
inductive Update where
  | NewMessage (m : Message)
  | MessageEdited (m : Message)
  | MessageDeleted (d : MessageDeletion)
  | CallbackQuery (q : CallbackQuery)
  | InlineQuery (q : InlineQuery)
  | Raw (u : TlUpdate)
deriving DecidableEq, Repr

/-- Embeds `Update::new(client, update, chats)` from `types/update.rs`. `msgNew`
is `Message::new` with the client argument fixed (its definition is
outside the claimed sources; it may fail, returning `None`). Every arm
mirrors one arm of the source `match`; the final arm is the catch-all
`update => Some(Self::Raw(...))`. -/
def Update.new (msgNew : Nat → ChatMap → Option Message)
    (update : TlUpdate) (chats : ChatMap) : Option Update :=
  match update with
  | .newMessage message _ _ => (msgNew message chats).map Update.NewMessage
  | .newChannelMessage message _ _ => (msgNew message chats).map Update.NewMessage
  | .editMessage message _ _ => (msgNew message chats).map Update.MessageEdited
  | .editChannelMessage message _ _ => (msgNew message chats).map Update.MessageEdited
  | .deleteMessages messages _ _ =>
    some (.MessageDeleted (MessageDeletion.new messages))
  | .deleteChannelMessages messages channelId _ _ =>
    some (.MessageDeleted (MessageDeletion.new_with_channel messages channelId))
  | .botCallbackQuery query => some (.CallbackQuery ⟨query, chats⟩)
  | .botInlineQuery query => some (.InlineQuery ⟨query, chats⟩)
  | u => some (.Raw u)

/-- Embeds `Client::next_update` from `updates.rs`, viewed along the stream of
`(raw update, chat map)` pairs that successive `next_raw_update` calls
return: it loops, returning the first pair on which `Update::new` yields
`Some` and silently consuming the pairs on which it yields `None`. -/
def next_update_from (msgNew : Nat → ChatMap → Option Message) :
    List (TlUpdate × ChatMap) → Option Update
  | [] => none
  | (u, chats) :: rest =>
    match Update.new msgNew u chats with
    | some update => some update
    | none => next_update_from msgNew rest

/-- C8: `Update::new` is a pure function of one raw update and its chat
map — `UpdateNewMessage`/`UpdateNewChannelMessage` map to `NewMessage`,
the edit pair to `MessageEdited`, the delete pair to `MessageDeleted`,
`UpdateBotCallbackQuery` to `CallbackQuery`, `UpdateBotInlineQuery` to
`InlineQuery`, and every other raw variant to `Some(Raw)`; it returns
`None` exactly when a message-bearing variant fails `Message`
construction, and `next_update` silently consumes such a raw update and
continues with the rest of the stream. -/
theorem C8_update_new_dispatch (msgNew : Nat → ChatMap → Option Message) (cm : ChatMap) :
    (∀ m p c, Update.new msgNew (.newMessage m p c) cm =
      (msgNew m cm).map Update.NewMessage) ∧
    (∀ m p c, Update.new msgNew (.newChannelMessage m p c) cm =
      (msgNew m cm).map Update.NewMessage) ∧
    (∀ m p c, Update.new msgNew (.editMessage m p c) cm =
      (msgNew m cm).map Update.MessageEdited) ∧
    (∀ m p c, Update.new msgNew (.editChannelMessage m p c) cm =
      (msgNew m cm).map Update.MessageEdited) ∧
    (∀ ms p c, Update.new msgNew (.deleteMessages ms p c) cm =
      some (.MessageDeleted ⟨ms, none⟩)) ∧
    (∀ ms ch p c, Update.new msgNew (.deleteChannelMessages ms ch p c) cm =
      some (.MessageDeleted ⟨ms, some ch⟩)) ∧
    (∀ q, Update.new msgNew (.botCallbackQuery q) cm = some (.CallbackQuery ⟨q, cm⟩)) ∧
    (∀ q, Update.new msgNew (.botInlineQuery q) cm = some (.InlineQuery ⟨q, cm⟩)) ∧
    (∀ uid st, Update.new msgNew (.userStatus uid st) cm =
      some (.Raw (.userStatus uid st))) ∧
    (∀ t, Update.new msgNew (.other t) cm = some (.Raw (.other t))) ∧
    (∀ u, Update.new msgNew u cm = none ↔
      ∃ m p c, (u = .newMessage m p c ∨ u = .newChannelMessage m p c ∨
        u = .editMessage m p c ∨ u = .editChannelMessage m p c) ∧
        msgNew m cm = none) ∧
    (∀ u rest, Update.new msgNew u cm = none →
      next_update_from msgNew ((u, cm) :: rest) = next_update_from msgNew rest) := by
  refine ⟨fun m p c => rfl, fun m p c => rfl, fun m p c => rfl, fun m p c => rfl,
    fun ms p c => rfl, fun ms ch p c => rfl, fun q => rfl, fun q => rfl,
    fun uid st => rfl, fun t => rfl, ?_, ?_⟩
  · intro u
    cases u <;>
      simp [Update.new, MessageDeletion.new, MessageDeletion.new_with_channel]
  · intro u rest h
    simp [next_update_from, h]

/-- C8 witness: with a `Message::new` that always fails, a delete update
still maps to `MessageDeleted`, and `next_update` skips a failing
`UpdateNewMessage` and continues with the remainder of the stream. -/
theorem C8_update_new_dispatch_witness :
    Update.new (fun _ _ => (none : Option Message))
      (.deleteMessages [3] 0 0) (ChatMap.new [] []) =
      some (.MessageDeleted ⟨[3], none⟩) ∧
    next_update_from (fun _ _ => (none : Option Message))
      [(TlUpdate.newMessage 0 0 0, ChatMap.new [] []),
       (TlUpdate.botInlineQuery 1, ChatMap.new [] [])] =
    next_update_from (fun _ _ => (none : Option Message))
      [(TlUpdate.botInlineQuery 1, ChatMap.new [] [])] := by
  refine ⟨(C8_update_new_dispatch (fun _ _ => none) (ChatMap.new [] [])).2.2.2.2.1 [3] 0 0, ?_⟩
  exact (C8_update_new_dispatch (fun _ _ => none)
    (ChatMap.new [] [])).2.2.2.2.2.2.2.2.2.2.2 (.newMessage 0 0 0) _ (by rfl)

/-- Embeds `std::ops::ControlFlow<(), Duration>` as returned by
`RetryPolicy::should_retry`; delays in seconds. -/
inductive ControlFlow where
  | cont (delay : Nat)
  | brk
deriving DecidableEq, Repr

/-- Embeds `Fixed` retry policy from `retry.rs`: a fixed attempt count and
delay. -/
structure Fixed where
  attempts : Nat
  delay : Nat
deriving DecidableEq, Repr

/-- Embeds `Fixed::new(attempts, delay)`. -/
def Fixed.new (attempts delay : Nat) : Fixed :=
  { attempts := attempts, delay := delay }

/-- Embeds `impl RetryPolicy for Fixed`: continue with the fixed delay while the
number of attempts already made is at most `self.attempts`, else break. -/
def Fixed.should_retry (p : Fixed) (attempts : Nat) : ControlFlow :=
  if attempts ≤ p.attempts then .cont p.delay else .brk

/-- Embeds `NoRetry`, the default policy. -/
structure NoRetry where
deriving DecidableEq, Repr

/-- Embeds `impl RetryPolicy for NoRetry`: always break. -/
def NoRetry.should_retry (_ : NoRetry) (_ : Nat) : ControlFlow :=
  .brk

/-- The `retrying!` macro loop from `retry.rs`. `body k` is the outcome of
the body's `(k+1)`-st evaluation; `attempts` counts evaluations already
made (0 at entry, incremented right after each evaluation, exactly as in
the source). On `Ok` the loop breaks with the value; on `Err` it consults
`should_retry attempts` and either loops (the sleep is irrelevant to the
result) or breaks with that same error. The source loop is syntactically
unbounded, so the embedding carries fuel and returns `none` on exhaustion;
the result is paired with the total number of body evaluations. -/
def retryingAux {E A : Type} (should_retry : Nat → ControlFlow)
    (body : Nat → Except E A) : Nat → Nat → Option (Except E A × Nat)
  | _, 0 => none
  | attempts, fuel + 1 =>
    match body attempts with
    | .ok value => some (.ok value, attempts + 1)
    | .error e =>
      match should_retry (attempts + 1) with
      | .cont _ => retryingAux should_retry body (attempts + 1) fuel
      | .brk => some (.error e, attempts + 1)

theorem retryingAux_fixed_terminates (n d : Nat) {E A : Type}
    (body : Nat → Except E A) :
    ∀ fuel attempts, attempts ≤ n → n + 1 ≤ attempts + fuel →
      ∃ r count, retryingAux (Fixed.new n d).should_retry body attempts fuel =
        some (r, count) ∧ count ≤ n + 1 := by
  intro fuel
  induction fuel with
  | zero => intro attempts h1 h2; omega
  | succ fuel ih =>
    intro attempts h1 h2
    cases hb : body attempts with
    | ok v =>
      exact ⟨.ok v, attempts + 1, by simp [retryingAux, hb], by omega⟩
    | error e =>
      by_cases hc : attempts + 1 ≤ n
      · obtain ⟨r, count, hr, hcount⟩ := ih (attempts + 1) hc (by omega)
        refine ⟨r, count, ?_, hcount⟩
        simp only [retryingAux, hb, Fixed.should_retry, Fixed.new, hc, if_pos]
        exact hr
      · refine ⟨.error e, attempts + 1, ?_, by omega⟩
        simp only [retryingAux, hb, Fixed.should_retry, Fixed.new]
        rw [if_neg hc]

/-- C10: `Fixed::should_retry k` is `Continue(delay)` exactly when
`k ≤ attempts` and `Break` otherwise, so the `retrying!` loop with policy
`Fixed {attempts := n, delay := d}` terminates after at most `n + 1` body
evaluations (fuel `n + 1` already suffices and is never exhausted); with
`NoRetry` the body is evaluated exactly once and its result — in
particular the first error — is returned unchanged. -/
theorem C10_retrying_bounded {E A : Type} (n d : Nat) (body : Nat → Except E A) :
    (∀ k, (Fixed.new n d).should_retry k =
      if k ≤ n then ControlFlow.cont d else ControlFlow.brk) ∧
    (∃ r count, retryingAux (Fixed.new n d).should_retry body 0 (n + 1) =
      some (r, count) ∧ count ≤ n + 1) ∧
    (∀ nr : NoRetry, ∀ fuel, 1 ≤ fuel →
      retryingAux nr.should_retry body 0 fuel = some (body 0, 1)) := by
  refine ⟨fun k => rfl, ?_, ?_⟩
  · exact retryingAux_fixed_terminates n d body (n + 1) 0 (Nat.zero_le n) (by omega)
  · intro nr fuel hfuel
    obtain ⟨fuel, rfl⟩ := Nat.exists_eq_add_of_le hfuel
    cases hb : body 0 with
    | ok v => simp [retryingAux, Nat.add_comm, hb]
    | error e => simp [retryingAux, Nat.add_comm, hb, NoRetry.should_retry]

/-- C10 witness: a body that always fails — with `Fixed {attempts := 2}`
the loop stops within 3 evaluations, and with `NoRetry` it returns the
first error after exactly one evaluation. -/
theorem C10_retrying_bounded_witness :
    (∃ r count, retryingAux (Fixed.new 2 1).should_retry
      (fun _ => (Except.error 7 : Except Nat Nat)) 0 3 = some (r, count) ∧ count ≤ 3) ∧
    retryingAux (NoRetry.mk).should_retry
      (fun _ => (Except.error 7 : Except Nat Nat)) 0 1 = some (.error 7, 1) := by
  refine ⟨(C10_retrying_bounded 2 1 (fun _ => (Except.error 7 : Except Nat Nat))).2.1, ?_⟩
  exact (C10_retrying_bounded 2 1
    (fun _ => (Except.error 7 : Except Nat Nat))).2.2 NoRetry.mk 1 (Nat.le_refl 1)

/-- Modelled from the spec: the RPC error payload of `grammers-mtsender`
(not under this tree) — the sequencer inspects its name
(`PERSISTENT_TIMESTAMP_OUTDATED`, `CHANNEL_PRIVATE`) and its status code
(500). -/
structure RpcError where
  name : String
  code : Nat
deriving DecidableEq, Repr

/-- Modelled from the spec: `InvocationError` of `grammers-mtsender` (not
under this tree) — either an RPC error answered by Telegram or any other
transport failure, the latter collapsed into one tagged constructor. -/
inductive InvocationError where
  | rpc (e : RpcError)
  | transport (tag : Nat)
deriving DecidableEq, Repr

/-- Modelled from the spec: `InvocationError::is(name)` holds exactly for
an RPC error carrying that name (the spec: "on the specific error codes
`PERSISTENT_TIMESTAMP_OUTDATED` and RPC status 500 … on
`CHANNEL_PRIVATE` …"). -/
def InvocationError.is : InvocationError → String → Bool
  | .rpc e, n => e.name == n
  | .transport _, _ => false

/-- Embeds `PrematureEndReason`, re-exported from `grammers-session` by
`updates.rs`. -/
inductive PrematureEndReason where
  | temporaryServerIssues
  | banned
deriving DecidableEq, Repr

/-- Outcome of the `select(sleep, step)` race in the final branch of
`next_raw_update`: either the deadline timer fires first, or the single
transport step completes first — failing, or succeeding having drained
some containers (which the transport glue feeds through
`process_socket_updates`). -/
inductive RaceResult (Cont : Type) where
  | sleepCompletedFirst
  | stepCompletedFirst (r : Except InvocationError (List Cont))

/-- The environment one `next_raw_update` loop iteration runs in: the
`MessageBox`/hash-table operations of `grammers-session` (abstract — the
theorems hold for every implementation), the configured queue limit, the
current instant, the transport oracles for the two difference RPCs, and
the outcome of the sleep/step race. Signatures mirror the call sites in
`updates.rs` (`&mut self` receivers become explicit state in/out). -/
structure SeqEnv (MB Hashes Req CReq Resp CResp Cont : Type) where
  update_queue_limit : Option Nat
  now : Nat
  check_deadlines : MB → MB × Nat
  get_difference : MB → MB × Option Req
  get_channel_difference : MB → Hashes → MB × Option CReq
  apply_difference : Resp → MB → Hashes →
    MB × Hashes × List TlUpdate × List Int × List Int
  apply_channel_difference : CReq → CResp → MB → Hashes →
    MB × Hashes × List TlUpdate × List Int × List Int
  end_channel_difference : CReq → PrematureEndReason → MB → MB
  ensure_known_peer_hashes : Cont → Hashes → Option Hashes
  process_updates : Cont → Hashes → MB → Except Unit (MB × UpdateResult)
  invoke_diff : Req → Except InvocationError Resp
  invoke_chan_diff : CReq → Except InvocationError CResp
  race : RaceResult Cont

/-- Transport contact made during one loop iteration (for stating "without
contacting the transport" and "a single transport step"). -/
inductive SeqAction (Req CReq : Type) where
  | invokedGetDifference (r : Req)
  | invokedGetChannelDifference (r : CReq)
  | racedSleepAgainstStep (deadline : Nat)
deriving DecidableEq

/-- How one loop iteration of `next_raw_update` ends: an update is
returned to the caller, an error is returned to the caller, or the loop
restarts (`continue`). -/
inductive SeqOutcome where
  | returned (u : TlUpdate × ChatMap)
  | failed (e : InvocationError)
  | continued
deriving DecidableEq

/-- One iteration of the `loop` in `Client::next_raw_update`
(`updates.rs`): pop the queue front if any; otherwise compute
`(deadline, get_diff, get_channel_diff)` in one critical section (in
source order — `check_deadlines` first, as it might trigger differences);
then either issue `updates.getDifference`, or issue
`updates.getChannelDifference` with its error triage
(`PERSISTENT_TIMESTAMP_OUTDATED` / `CHANNEL_PRIVATE` / RPC code 500 end
the channel difference and restart; anything else is returned), or race
the deadline sleep against a single transport step. Returns the state
after the iteration, how it ended, and the transport actions it made. -/
def nextRawUpdateIter {MB Hashes Req CReq Resp CResp Cont : Type}
    (env : SeqEnv MB Hashes Req CReq Resp CResp Cont)
    (s : ClientState MB Hashes) :
    ClientState MB Hashes × SeqOutcome × List (SeqAction Req CReq) :=
  match s.updates with
  | u :: rest => ({ s with updates := rest }, .returned u, [])
  | [] =>
    match env.check_deadlines s.message_box with
    | (mb1, deadline) =>
      match env.get_difference mb1 with
      | (mb2, get_diff) =>
        match env.get_channel_difference mb2 s.chat_hashes with
        | (mb3, get_channel_diff) =>
          let s1 : ClientState MB Hashes := { s with message_box := mb3 }
          match get_diff with
          | some request =>
            (match env.invoke_diff request with
             | .error e => (s1, .failed e, [.invokedGetDifference request])
             | .ok response =>
               match env.apply_difference response s1.message_box s1.chat_hashes with
               | (mb4, hashes4, updates, users, chats) =>
                 ((extend_update_queue env.update_queue_limit env.now
                     { s1 with message_box := mb4, chat_hashes := hashes4 }
                     updates (ChatMap.new users chats)).1,
                  .continued, [.invokedGetDifference request]))
          | none =>
            match get_channel_diff with
            | some request =>
              (match env.invoke_chan_diff request with
               | .ok response =>
                 match env.apply_channel_difference request response
                     s1.message_box s1.chat_hashes with
                 | (mb4, hashes4, updates, users, chats) =>
                   ((extend_update_queue env.update_queue_limit env.now
                       { s1 with message_box := mb4, chat_hashes := hashes4 }
                       updates (ChatMap.new users chats)).1,
                    .continued, [.invokedGetChannelDifference request])
               | .error e =>
                 if e.is "PERSISTENT_TIMESTAMP_OUTDATED" then
                   let mbEnd := env.end_channel_difference request
                     PrematureEndReason.temporaryServerIssues s1.message_box
                   ({ s1 with message_box := mbEnd },
                    .continued, [.invokedGetChannelDifference request])
                 else if e.is "CHANNEL_PRIVATE" then
                   let mbEnd := env.end_channel_difference request
                     PrematureEndReason.banned s1.message_box
                   ({ s1 with message_box := mbEnd },
                    .continued, [.invokedGetChannelDifference request])
                 else
                   match e with
                   | .rpc rpc_error =>
                     if rpc_error.code == 500 then
                       let mbEnd := env.end_channel_difference request
                         PrematureEndReason.temporaryServerIssues s1.message_box
                       ({ s1 with message_box := mbEnd },
                        .continued, [.invokedGetChannelDifference request])
                     else (s1, .failed e, [.invokedGetChannelDifference request])
                   | _ => (s1, .failed e, [.invokedGetChannelDifference request]))
            | none =>
              match env.race with
              | .sleepCompletedFirst =>
                (s1, .continued, [.racedSleepAgainstStep deadline])
              | .stepCompletedFirst (.error e) =>
                (s1, .failed e, [.racedSleepAgainstStep deadline])
              | .stepCompletedFirst (.ok containers) =>
                (process_socket_updates env.ensure_known_peer_hashes env.process_updates
                   env.update_queue_limit env.now containers s1,
                 .continued, [.racedSleepAgainstStep deadline])

/-- C1: every `next_raw_update` loop iteration proceeds in the fixed
order: (1) a non-empty queue returns its front entry (FIFO) with no
transport contact; (2) otherwise, a due common-box difference request is
issued, and on success its results are pushed to the queue and the loop
restarts; (3) otherwise, a due channel difference request is issued;
(4) otherwise the iteration races a sleep until the earliest box deadline
against a single transport step — whose drained containers feed
`process_socket_updates` — and restarts the loop. -/
theorem C1_next_raw_update_iteration_order
    {MB Hashes Req CReq Resp CResp Cont : Type}
    (env : SeqEnv MB Hashes Req CReq Resp CResp Cont) (s : ClientState MB Hashes) :
    (∀ u rest, s.updates = u :: rest →
      nextRawUpdateIter env s = ({ s with updates := rest }, .returned u, [])) ∧
    (∀ mb1 dl mb2 r mb3 gcd, s.updates = [] →
      env.check_deadlines s.message_box = (mb1, dl) →
      env.get_difference mb1 = (mb2, some r) →
      env.get_channel_difference mb2 s.chat_hashes = (mb3, gcd) →
      (nextRawUpdateIter env s).2.2 = [.invokedGetDifference r] ∧
      (∀ resp mb4 h4 us usr chs,
        env.invoke_diff r = .ok resp →
        env.apply_difference resp mb3 s.chat_hashes = (mb4, h4, us, usr, chs) →
        nextRawUpdateIter env s =
          ((extend_update_queue env.update_queue_limit env.now
              { s with message_box := mb4, chat_hashes := h4 }
              us (ChatMap.new usr chs)).1,
           .continued, [.invokedGetDifference r]))) ∧
    (∀ mb1 dl mb2 mb3 r, s.updates = [] →
      env.check_deadlines s.message_box = (mb1, dl) →
      env.get_difference mb1 = (mb2, none) →
      env.get_channel_difference mb2 s.chat_hashes = (mb3, some r) →
      (nextRawUpdateIter env s).2.2 = [.invokedGetChannelDifference r]) ∧
    (∀ mb1 dl mb2 mb3, s.updates = [] →
      env.check_deadlines s.message_box = (mb1, dl) →
      env.get_difference mb1 = (mb2, none) →
      env.get_channel_difference mb2 s.chat_hashes = (mb3, none) →
      (nextRawUpdateIter env s).2.2 = [.racedSleepAgainstStep dl] ∧
      (env.race = .sleepCompletedFirst →
        nextRawUpdateIter env s =
          ({ s with message_box := mb3 }, .continued, [.racedSleepAgainstStep dl])) ∧
      (∀ cs, env.race = .stepCompletedFirst (.ok cs) →
        nextRawUpdateIter env s =
          (process_socket_updates env.ensure_known_peer_hashes env.process_updates
             env.update_queue_limit env.now cs { s with message_box := mb3 },
           .continued, [.racedSleepAgainstStep dl]))) := by
  refine ⟨?_, ?_, ?_, ?_⟩
  · intro u rest h
    simp [nextRawUpdateIter, h]
  · intro mb1 dl mb2 r mb3 gcd hq hcd hgd hgcd
    constructor
    · cases hi : env.invoke_diff r with
      | error e => simp [nextRawUpdateIter, hq, hcd, hgd, hgcd, hi]
      | ok resp =>
        rcases ha : env.apply_difference resp mb3 s.chat_hashes with ⟨mb4, h4, us, usr, chs⟩
        simp [nextRawUpdateIter, hq, hcd, hgd, hgcd, hi, ha]
    · intro resp mb4 h4 us usr chs hi ha
      simp [nextRawUpdateIter, hq, hcd, hgd, hgcd, hi, ha]
  · intro mb1 dl mb2 mb3 r hq hcd hgd hgcd
    cases hi : env.invoke_chan_diff r with
    | error e =>
      cases e with
      | rpc re =>
        by_cases h5 : re.code == 500 <;>
          by_cases hp : (InvocationError.rpc re).is "PERSISTENT_TIMESTAMP_OUTDATED" <;>
          by_cases hc : (InvocationError.rpc re).is "CHANNEL_PRIVATE" <;>
          simp [nextRawUpdateIter, hq, hcd, hgd, hgcd, hi, hp, hc, h5]
      | transport t =>
        by_cases hp : (InvocationError.transport t).is "PERSISTENT_TIMESTAMP_OUTDATED" <;>
          by_cases hc : (InvocationError.transport t).is "CHANNEL_PRIVATE" <;>
          simp [nextRawUpdateIter, hq, hcd, hgd, hgcd, hi, hp, hc]
    | ok resp =>
      rcases ha : env.apply_channel_difference r resp mb3 s.chat_hashes with
        ⟨mb4, h4, us, usr, chs⟩
      simp [nextRawUpdateIter, hq, hcd, hgd, hgcd, hi, ha]
  · intro mb1 dl mb2 mb3 hq hcd hgd hgcd
    refine ⟨?_, ?_, ?_⟩
    · cases hr : env.race with
      | sleepCompletedFirst => simp [nextRawUpdateIter, hq, hcd, hgd, hgcd, hr]
      | stepCompletedFirst r =>
        cases r with
        | error e => simp [nextRawUpdateIter, hq, hcd, hgd, hgcd, hr]
        | ok cs => simp [nextRawUpdateIter, hq, hcd, hgd, hgcd, hr]
    · intro hr
      simp [nextRawUpdateIter, hq, hcd, hgd, hgcd, hr]
    · intro cs hr
      simp [nextRawUpdateIter, hq, hcd, hgd, hgcd, hr]

/-- C2: when the iteration issues a channel difference request and the
transport fails: on `PERSISTENT_TIMESTAMP_OUTDATED` the channel
difference is ended with `TemporaryServerIssues` and the loop restarts
without surfacing an error; on `CHANNEL_PRIVATE` it is ended with
`Banned` and the loop restarts; on any other RPC error with status code
500 it is ended with `TemporaryServerIssues` and the loop restarts; every
other transport error is returned to the caller, after the one
invocation, with no retry by the sequencer. -/
theorem C2_channel_difference_error_handling
    {MB Hashes Req CReq Resp CResp Cont : Type}
    (env : SeqEnv MB Hashes Req CReq Resp CResp Cont) (s : ClientState MB Hashes)
    (mb1 : MB) (dl : Nat) (mb2 mb3 : MB) (r : CReq)
    (hq : s.updates = [])
    (hcd : env.check_deadlines s.message_box = (mb1, dl))
    (hgd : env.get_difference mb1 = (mb2, none))
    (hgcd : env.get_channel_difference mb2 s.chat_hashes = (mb3, some r)) :
    ∀ e, env.invoke_chan_diff r = .error e →
      (e.is "PERSISTENT_TIMESTAMP_OUTDATED" = true →
        nextRawUpdateIter env s =
          ({ s with message_box :=
              env.end_channel_difference r PrematureEndReason.temporaryServerIssues mb3 },
           .continued, [.invokedGetChannelDifference r])) ∧
      (e.is "CHANNEL_PRIVATE" = true →
        nextRawUpdateIter env s =
          ({ s with message_box :=
              env.end_channel_difference r PrematureEndReason.banned mb3 },
           .continued, [.invokedGetChannelDifference r])) ∧
      (∀ re, e = .rpc re → re.code = 500 →
        e.is "PERSISTENT_TIMESTAMP_OUTDATED" = false → e.is "CHANNEL_PRIVATE" = false →
        nextRawUpdateIter env s =
          ({ s with message_box :=
              env.end_channel_difference r PrematureEndReason.temporaryServerIssues mb3 },
           .continued, [.invokedGetChannelDifference r])) ∧
      (e.is "PERSISTENT_TIMESTAMP_OUTDATED" = false → e.is "CHANNEL_PRIVATE" = false →
        (∀ re, e = .rpc re → re.code ≠ 500) →
        nextRawUpdateIter env s =
          ({ s with message_box := mb3 }, .failed e,
           [.invokedGetChannelDifference r])) := by
  intro e hi
  refine ⟨?_, ?_, ?_, ?_⟩
  · intro hp
    simp [nextRawUpdateIter, hq, hcd, hgd, hgcd, hi, hp]
  · intro hc
    have hp : e.is "PERSISTENT_TIMESTAMP_OUTDATED" = false := by
      cases e with
      | rpc re =>
        simp only [InvocationError.is, beq_iff_eq] at hc ⊢
        rw [hc]
        decide
      | transport t => rfl
    simp [nextRawUpdateIter, hq, hcd, hgd, hgcd, hi, hp, hc]
  · rintro re rfl h5 hp hc
    simp [nextRawUpdateIter, hq, hcd, hgd, hgcd, hi, hp, hc, h5]
  · intro hp hc hnot5
    cases e with
    | rpc re =>
      have h5 : (re.code == 500) = false := by
        simpa using hnot5 re rfl
      simp [nextRawUpdateIter, hq, hcd, hgd, hgcd, hi, hp, hc, h5]
    | transport t =>
      simp [nextRawUpdateIter, hq, hcd, hgd, hgcd, hi, hp, hc]

/-- A concrete sequencer environment over `Nat` component types, for
exercising the iteration theorems on closed inputs: deadlines pass the box
through, no common difference is due, channel request `4` is due and its
transport outcome is `chan`; ending a channel difference adds 100
(`TemporaryServerIssues`) or 200 (`Banned`) to the box so the effect is
visible. -/
def demoSeqEnv (chan : Except InvocationError Nat) :
    SeqEnv Nat Nat Nat Nat Nat Nat Nat where
  update_queue_limit := none
  now := 0
  check_deadlines := fun mb => (mb, 15)
  get_difference := fun mb => (mb, none)
  get_channel_difference := fun mb _ => (mb, some 4)
  apply_difference := fun _ mb h => (mb, h, [], [], [])
  apply_channel_difference := fun _ resp mb h => (mb, h, [TlUpdate.other resp], [], [])
  end_channel_difference := fun _ reason mb =>
    match reason with
    | .temporaryServerIssues => mb + 100
    | .banned => mb + 200
  ensure_known_peer_hashes := fun _ h => some h
  process_updates := fun c _ mb => .ok (mb, ⟨[TlUpdate.other c], [], []⟩)
  invoke_diff := fun _ => .error (.transport 0)
  invoke_chan_diff := fun _ => chan
  race := .sleepCompletedFirst

/-- C1 witness: with a non-empty queue the iteration returns the front
entry, leaves the rest of the state alone, and makes no transport
contact. -/
theorem C1_next_raw_update_iteration_order_witness :
    nextRawUpdateIter (demoSeqEnv (.error (.transport 0)))
      ⟨[(TlUpdate.other 5, ChatMap.new [] [])], 3, 7, none⟩ =
      (⟨[], 3, 7, none⟩, .returned (TlUpdate.other 5, ChatMap.new [] []), []) :=
  (C1_next_raw_update_iteration_order (demoSeqEnv (.error (.transport 0)))
    ⟨[(TlUpdate.other 5, ChatMap.new [] [])], 3, 7, none⟩).1
    (TlUpdate.other 5, ChatMap.new [] []) [] rfl

/-- C2 witness: the channel difference request fails with
`CHANNEL_PRIVATE` (status 400); the iteration ends the channel difference
with `Banned` (box 3 becomes 203 in the demo environment) and restarts
without surfacing an error. -/
theorem C2_channel_difference_error_handling_witness :
    nextRawUpdateIter (demoSeqEnv (.error (.rpc ⟨"CHANNEL_PRIVATE", 400⟩)))
      ⟨[], 3, 7, none⟩ =
      (⟨[], 203, 7, none⟩, .continued, [.invokedGetChannelDifference 4]) :=
  ((C2_channel_difference_error_handling
      (demoSeqEnv (.error (.rpc ⟨"CHANNEL_PRIVATE", 400⟩)))
      ⟨[], 3, 7, none⟩ 3 15 3 3 4 rfl rfl rfl rfl)
    (.rpc ⟨"CHANNEL_PRIVATE", 400⟩) rfl).2.1 (by decide)
